import Mathlib

/-!
Verification development for the cycling-diner repository.

The repository holds two Python scripts, src/generate_map.py and
src/export_geojson.py, that read a CSV of participant records, geocode the
addresses through an external service and emit either a static map image
(batched by URL length) or a GeoJSON FeatureCollection.

Modelling conventions:
* Coordinates are exact integers in micro-degrees: an Int pair (lon, lat)
  stands for the real coordinate (lon / 10^6, lat / 10^6).  Every quantity
  the claims mention is exact at this granularity, so no floating point is
  needed.
* The network boundary is the pair HTTP-request plus json.load.  Its
  outcome is a GeoResponse value: either the transport or the JSON parse
  raised, or a features array was obtained, each candidate carrying an
  optional center array of JSON values.  Everything after that boundary
  (truthiness tests, float conversions, try and except placement) is
  translated from the source.
* Python exceptions that escape a try block are modelled with Except: an
  Except.error escaping a loop is an aborted batch.
* print calls to stderr are collected in errs lists; geocoding requests and
  the time.sleep(RATE_LIMIT_DELAY) pauses are collected as Event traces.
-/

/-- JSON-like values, covering both geocoding response fragments and the
emitted GeoJSON. -/
inductive Json where
  | str (s : String)
  | num (n : Int)
  | arr (xs : List Json)
  | obj (kvs : List (String × Json))

/-- A resolved coordinate pair (lon, lat) in exact micro-degrees. -/
abbrev Coord := Int × Int

/-- A CSV row: ordered column name to value mapping, plus the zero-based
row index that read_rows stores under the key __row. -/
structure Rec where
  fields : List (String × String)
  rowIdx : Nat
deriving DecidableEq

/-- Python row.get(key) or "": a missing key and an empty value both give
the empty string. -/
def Rec.get (r : Rec) (k : String) : String :=
  (r.fields.lookup k).getD ""

/-- Python str.lower(), modelled characterwise. -/
def strLower (s : String) : String :=
  String.mk (s.data.map Char.toLower)

/-- Drop leading whitespace characters. -/
def dropLeadingWs : List Char → List Char
  | [] => []
  | c :: rest => if c.isWhitespace then dropLeadingWs rest else c :: rest

/-- Python str.strip(): remove leading and trailing whitespace. -/
def pyStrip (s : String) : String :=
  String.mk (((dropLeadingWs s.data).reverse |> dropLeadingWs).reverse)

/-- Python sep.join(parts). -/
def joinSep (sep : String) : List String → String
  | [] => ""
  | [x] => x
  | x :: xs => x ++ sep ++ joinSep sep xs

/-- Observable effects of the geocoding loops: a geocoding request for an
address, or the time.sleep(RATE_LIMIT_DELAY) rate-limit pause. -/
inductive Event where
  | call (address : String)
  | sleep
deriving DecidableEq

/-- RATE_LIMIT_DELAY = 0.15 seconds, expressed in milliseconds. -/
def RATE_LIMIT_DELAY_MS : Nat := 150

/-- The addresses passed to the geocoding service, in call order. -/
def callsOf (events : List Event) : List String :=
  events.filterMap (fun e => match e with | .call a => some a | .sleep => none)

/-- Outcome of the HTTP request plus json.load step of one geocoding call:
either the transport or the JSON parsing raised, or a JSON object was
obtained whose features array holds, per candidate, an optional center
array. -/
inductive GeoResponse where
  | transportErr (e : String)
  | jsonOk (features : List (Option (List Json)))

/-- Python float(x) on a JSON value: numbers convert, everything else
raises.  (Strings that happen to parse as numerals would also convert in
Python; no claim depends on them and they are modelled as raising.) -/
def floatOf : Json → Option Int
  | .num n => some n
  | _ => none

/-- The seen-set loop of generate_map.py (lines 33-40 for addresses and
77-84 for coordinates): seen is the set of values already kept, modelled
as the list of kept values. -/
def dedupAux {α : Type} [DecidableEq α] (seen : List α) : List α → List α
  | [] => []
  | a :: rest => if a ∈ seen then dedupAux seen rest else a :: dedupAux (a :: seen) rest

/-- Deduplicate while preserving first-seen order. -/
def dedup {α : Type} [DecidableEq α] (l : List α) : List α :=
  dedupAux [] l

namespace GenerateMap

/-- MARKER_COLOR (generate_map.py line 14). -/
def MARKER_COLOR : String := "ff2d20"

/-- geocode_address (generate_map.py lines 43-60): a transport or parse
failure raises; an empty features array returns None; otherwise the
optional center array of the top candidate is returned. -/
def geocode_address (resp : GeoResponse) : Except String (Option (List Json)) :=
  match resp with
  | .transportErr e => .error e
  | .jsonOk [] => .ok none
  | .jsonOk (f :: _) => .ok f

/-- One iteration of the geocode_all loop (lines 65-76): the try and except
around geocode_address, the Python truthiness test on the center value, and
the float conversions of line 72.  Those conversions run outside the try
block, so when a center entry does not convert the exception escapes the
loop, modelled by the Except.error branches.  The String list holds the
stderr diagnostics of the iteration. -/
def geocodeStep (resolve : String → GeoResponse) (addr : String) :
    Except String (Option Coord × List String) :=
  match geocode_address (resolve addr) with
  | .error e =>
      .ok (none, ["Geocoding error for " ++ addr ++ ": " ++ e,
                  "Warning: no result for " ++ addr])
  | .ok none => .ok (none, ["Warning: no result for " ++ addr])
  | .ok (some []) => .ok (none, ["Warning: no result for " ++ addr])
  | .ok (some (x :: y :: _)) =>
      match floatOf x, floatOf y with
      | some lon, some lat => .ok (some (lon, lat), [])
      | _, _ => .error ("could not convert center entries for " ++ addr)
  | .ok (some [x]) =>
      match floatOf x with
      | some _ => .error ("IndexError on center of " ++ addr)
      | none => .error ("could not convert center entries for " ++ addr)

/-- Result of a completed geocode_all run: resolved coordinates, stderr
diagnostics, and the call and sleep events in order. -/
structure ImgRun where
  coords : List Coord
  errs : List String
  events : List Event
deriving DecidableEq

/-- The loop body of geocode_all (lines 64-76) over the whole address
list, before the final coordinate deduplication.  Every non-aborting
iteration ends with time.sleep(RATE_LIMIT_DELAY), hence the sleep event
after every call. -/
def geocodeRaw (resolve : String → GeoResponse) : List String → Except String ImgRun
  | [] => .ok ⟨[], [], []⟩
  | a :: rest =>
    match geocodeStep resolve a with
    | .error e => .error e
    | .ok (c, errs) =>
      match geocodeRaw resolve rest with
      | .error e => .error e
      | .ok r => .ok ⟨c.toList ++ r.coords, errs ++ r.errs,
                      [Event.call a, Event.sleep] ++ r.events⟩

/-- geocode_all (lines 63-84): run the loop, then deduplicate the
coordinates preserving order (lines 77-84). -/
def geocode_all (resolve : String → GeoResponse) (addrs : List String) :
    Except String ImgRun :=
  match geocodeRaw resolve addrs with
  | .error e => .error e
  | .ok r => .ok ⟨dedup r.coords, r.errs, r.events⟩

/-- Per-row address construction and filtering inside read_addresses
(lines 22-32): rows with an empty stripped street are skipped first, then
rows whose stripped city is non-empty and, lowered, differs from
utrecht; the remaining rows contribute the joined address string of
line 31. -/
def rowAddress (r : Rec) : Option String :=
  let stad := pyStrip (r.get "Stad")
  let adres := pyStrip (r.get "Adres")
  let postcode := pyStrip (r.get "Postcode")
  if adres = "" then none
  else if stad ≠ "" ∧ strLower stad ≠ "utrecht" then none
  else some (joinSep ", " ([adres, postcode, "Utrecht, Nederland"].filter (fun p => p ≠ "")))

/-- read_addresses (lines 18-40): collect the addresses, then deduplicate
preserving first-seen order. -/
def read_addresses (rows : List Rec) : List String :=
  dedup (rows.filterMap rowAddress)

/-- Zero padding to six digits for the fractional part of a coordinate. -/
def pad6 (m : Nat) : String :=
  String.mk (List.replicate (6 - (toString m).length) '0') ++ toString m

/-- Python format .6f applied to the exact micro-degree value n / 10^6. -/
def fmt6 (n : Int) : String :=
  (if n < 0 then "-" else "") ++
    toString (n.natAbs / 1000000) ++ "." ++ pad6 (n.natAbs % 1000000)

/-- build_marker_overlays (lines 87-92): one pin-s marker token per
coordinate, comma-joined. -/
def build_marker_overlays (coords : List Coord) : String :=
  joinSep "," (coords.map (fun c =>
    "pin-s+" ++ MARKER_COLOR ++ "(" ++ fmt6 c.1 ++ "," ++ fmt6 c.2 ++ ")"))

/-- build_static_url (lines 95-101) with the default center, zoom and
size.  The rendered center is the .6f formatting of UTRECHT_CENTER =
(5.1214201, 52.0907374); the urlencoded access_token query string is
modelled as the literal key=value pair, tokens being URL-safe. -/
def build_static_url (overlays : String) (token : String) : String :=
  "https://api.mapbox.com/styles/v1/mapbox/streets-v12/static/" ++ overlays ++
    "/5.121420,52.090737,12,0,0/1280x1280@2x" ++ "?" ++ "access_token=" ++ token

/-- chunk (lines 110-112): successive slices of size n.  For n = 0 Python
would raise at once; the program only ever uses n = 100, and the n = 0
case is modelled as the empty output. -/
def chunk {α : Type} (n : Nat) : List α → List (List α)
  | [] => []
  | a :: rest =>
    if hn : n = 0 then []
    else (a :: rest).take n :: chunk n ((a :: rest).drop n)
termination_by l => l.length
decreasing_by
  simp only [List.length_drop, List.length_cons]
  omega

/-- The job planning of main (lines 135-160): with no coordinates main
exits at line 135 before planning any job; if the single full URL stays
under 7800 characters one job covers all coordinates (lines 143-148);
otherwise the coordinates are split into chunks of 100 (lines 150-159). -/
def planJobs (token : String) (coords : List Coord) : List (List Coord) :=
  if coords = [] then []
  else if (build_static_url (build_marker_overlays coords) token).length < 7800 then
    [coords]
  else chunk 100 coords

/-- Responses whose top candidate does not carry a non-empty center array
that the float conversions of line 72 would choke on: for these the
geocode_all loop cannot abort. -/
def centerSafe : GeoResponse → Bool
  | .transportErr _ => true
  | .jsonOk [] => true
  | .jsonOk (none :: _) => true
  | .jsonOk (some [] :: _) => true
  | .jsonOk (some (x :: y :: _) :: _) => (floatOf x).isSome && (floatOf y).isSome
  | .jsonOk (some [_] :: _) => false

end GenerateMap

namespace ExportGeojson

/-- build_full_address (export_geojson.py lines 24-27): join the non-empty
parts of street, postal code and the fixed suffix with a comma. -/
def build_full_address (r : Rec) : String :=
  let adres := pyStrip (r.get "Adres")
  let postcode := pyStrip (r.get "Postcode")
  joinSep ", " ([adres, postcode, "Utrecht, Nederland"].filter (fun p => p ≠ ""))

/-- geocode (lines 30-47).  Unlike generate_map.py, the float conversions
of line 47 happen inside this function, hence inside the try block of the
caller, so a bad center raises out of geocode and is caught at the call
site. -/
def geocode (resp : GeoResponse) : Except String (Option Coord) :=
  match resp with
  | .transportErr e => .error e
  | .jsonOk [] => .ok none
  | .jsonOk (none :: _) => .ok none
  | .jsonOk (some [] :: _) => .ok none
  | .jsonOk (some (x :: y :: _) :: _) =>
      match floatOf x, floatOf y with
      | some lon, some lat => .ok (some (lon, lat))
      | _, _ => .error "could not convert center entry to float"
  | .jsonOk (some [x] :: _) =>
      match floatOf x with
      | some _ => .error "IndexError"
      | none => .error "could not convert center entry to float"

/-- The allow-list of sanitize_props (lines 52-63): original column name
paired with the short output key, in source order. -/
def keep : List (String × String) :=
  [("Naam persoon A", "naamA"), ("Naam persoon B", "naamB"),
   ("Adres", "adres"), ("Postcode", "postcode"), ("Stad", "stad"),
   ("Team persoon A", "teamA"), ("Team persoon B", "teamB"),
   ("Dieetwensen", "dieet"), ("Allergieën", "allergie"),
   ("Overige opmerkingen", "opmerking")]

/-- sanitize_props (lines 50-66): the renamed allow-listed fields in
insertion order, each value stripped, then the row index under the key
row. -/
def sanitize_props (r : Rec) : List (String × Json) :=
  keep.map (fun p => (p.2, Json.str (pyStrip (r.get p.1)))) ++
    [("row", Json.num r.rowIdx)]

/-- The city filter of main (lines 84-85): stad = stripped and lowered
city value; the row is dropped when stad is truthy and differs from
utrecht. -/
def cityExcluded (r : Rec) : Bool :=
  let stad := strLower (pyStrip (r.get "Stad"))
  decide (stad ≠ "") && decide (stad ≠ "utrecht")

/-- Outcome of one main-loop iteration: the appended feature if any, the
stderr diagnostics, and the call and sleep events. -/
structure RowOut where
  feature : Option Json
  errs : List String
  events : List Event

/-- One iteration of the main loop (lines 83-107): the city filter, the
address building with its empty-address guard, the try and except around
geocode, and the feature construction.  Only the success path reaches the
time.sleep of line 107: the failure paths leave the body through continue
first. -/
def processRow (resolve : String → GeoResponse) (r : Rec) : RowOut :=
  if cityExcluded r then ⟨none, [], []⟩
  else
    let address := build_full_address r
    if address = "" then ⟨none, [], []⟩
    else
      match geocode (resolve address) with
      | .error e =>
          ⟨none, ["Geocoding failed for " ++ address ++ ": " ++ e,
                  "No result for " ++ address], [Event.call address]⟩
      | .ok none => ⟨none, ["No result for " ++ address], [Event.call address]⟩
      | .ok (some (lon, lat)) =>
          ⟨some (Json.obj [("type", Json.str "Feature"),
              ("geometry", Json.obj [("type", Json.str "Point"),
                ("coordinates", Json.arr [Json.num lon, Json.num lat])]),
              ("properties", Json.obj (sanitize_props r))]),
           [], [Event.call address, Event.sleep]⟩

/-- Accumulated outcome of the whole main loop. -/
structure GeoRun where
  features : List Json
  errs : List String
  events : List Event

/-- The main loop (lines 83-107) over all rows in order. -/
def exportRun (resolve : String → GeoResponse) : List Rec → GeoRun
  | [] => ⟨[], [], []⟩
  | r :: rest =>
    let o := processRow resolve r
    let rr := exportRun resolve rest
    ⟨o.feature.toList ++ rr.features, o.errs ++ rr.errs, o.events ++ rr.events⟩

/-- The FeatureCollection object written at lines 109-112. -/
def exportFC (resolve : String → GeoResponse) (rows : List Rec) : Json :=
  Json.obj [("type", Json.str "FeatureCollection"),
            ("features", Json.arr (exportRun resolve rows).features)]

/-- read_rows (lines 16-21): each CSV row receives its zero-based index. -/
def read_rows (raws : List (List (String × String))) : List Rec :=
  raws.enum.map (fun p => ⟨p.2, p.1⟩)

end ExportGeojson

/-! Concrete fixtures used by witnesses, counterexamples and failing-input
evaluations. -/

/-- A geocoding service that always reports an empty features array. -/
def noResultResolve : String → GeoResponse := fun _ => GeoResponse.jsonOk []

/-- A geocoding service that always returns the same well-formed center. -/
def okResolve : String → GeoResponse :=
  fun _ => GeoResponse.jsonOk [some [Json.num 5121420, Json.num 52090737]]

/-- A geocoding service returning a malformed (non-numeric) center for the
address a and a well-formed center for every other address. -/
def mixedResolve : String → GeoResponse := fun addr =>
  if addr = "a" then GeoResponse.jsonOk [some [Json.str "x", Json.str "y"]]
  else GeoResponse.jsonOk [some [Json.num 5121420, Json.num 52090737]]

/-- Row 0: a Utrecht record with a street and no postal code. -/
def rowA : Rec := ⟨[("Adres", "Domplein 1"), ("Stad", "Utrecht")], 0⟩

/-- Row 1: a distinct record sharing the address of rowA. -/
def rowA2 : Rec :=
  ⟨[("Adres", "Domplein 1"), ("Stad", "Utrecht"), ("Naam persoon A", "B")], 1⟩

/-- Row 1: a second Utrecht record with a different street. -/
def rowB : Rec := ⟨[("Adres", "Neude 2"), ("Stad", "Utrecht")], 1⟩

/-- A record whose street field is empty. -/
def emptyStreetRec : Rec := ⟨[("Adres", ""), ("Postcode", ""), ("Stad", "")], 0⟩

/-- A record whose city field is Rotterdam. -/
def rotterdamRec : Rec :=
  ⟨[("Adres", "Coolsingel 1"), ("Postcode", "3011 AD"), ("Stad", "Rotterdam")], 0⟩

/-- 250 equal coordinates, enough markers to push the single URL over the
7800-character threshold. -/
def w250 : List Coord := List.replicate 250 ((0 : Int), (0 : Int))

/-- Two records that agree on every allow-listed column and on the row
index; this one carries an extra unlisted column. -/
def recWithSecret : Rec :=
  ⟨[("Adres", "Domplein 1"), ("Stad", "Utrecht"), ("Email", "secret@example.org")], 3⟩

/-- The companion of recWithSecret without the unlisted column. -/
def recWithoutSecret : Rec := ⟨[("Adres", "Domplein 1"), ("Stad", "Utrecht")], 3⟩

/-- The completed run of geocode_all under noResultResolve on the address
list x, y. -/
def xyRun : GenerateMap.ImgRun :=
  ⟨[], ["Warning: no result for x", "Warning: no result for y"],
   [Event.call "x", Event.sleep, Event.call "y", Event.sleep]⟩

/-! Helper lemmas. -/

/-- Lowering a string preserves emptiness. -/
theorem strLower_eq_empty_iff (s : String) : strLower s = "" ↔ s = "" := by
  constructor
  · intro h
    have hd : s.data.map Char.toLower = [] := congrArg String.data h
    have hnil : s.data = [] := List.map_eq_nil_iff.mp hd
    exact String.ext hnil
  · intro h
    subst h
    rfl

/-- Membership in the seen-set loop: kept iff present and not yet seen. -/
theorem dedupAux_mem {α : Type} [DecidableEq α] (seen l : List α) (a : α) :
    a ∈ dedupAux seen l ↔ a ∈ l ∧ a ∉ seen := by
  induction l generalizing seen with
  | nil => simp [dedupAux]
  | cons b rest ih =>
    by_cases hb : b ∈ seen
    · simp only [dedupAux, if_pos hb, ih, List.mem_cons]
      constructor
      · exact fun h => ⟨Or.inr h.1, h.2⟩
      · rintro ⟨hmem | hmem, hns⟩
        · exact absurd (hmem ▸ hb) hns
        · exact ⟨hmem, hns⟩
    · simp only [dedupAux, if_neg hb, List.mem_cons, ih]
      constructor
      · rintro (h | ⟨h1, h2⟩)
        · subst h
          exact ⟨Or.inl rfl, hb⟩
        · refine ⟨Or.inr h1, fun hs => h2 (Or.inr hs)⟩
      · rintro ⟨hmem | hmem, hns⟩
        · exact Or.inl hmem
        · by_cases hab : a = b
          · exact Or.inl hab
          · refine Or.inr ⟨hmem, fun hs => ?_⟩
            rcases hs with h2 | h2
            · exact hab h2
            · exact hns h2

/-- The seen-set loop never keeps a value twice. -/
theorem dedupAux_nodup {α : Type} [DecidableEq α] (seen l : List α) :
    (dedupAux seen l).Nodup := by
  induction l generalizing seen with
  | nil => simp [dedupAux]
  | cons b rest ih =>
    by_cases hb : b ∈ seen
    · simpa [dedupAux, if_pos hb] using ih seen
    · simp only [dedupAux, if_neg hb]
      refine List.nodup_cons.mpr ⟨?_, ih (b :: seen)⟩
      intro hmem
      exact ((dedupAux_mem _ _ _).mp hmem).2 (List.mem_cons_self _ _)

/-- The seen-set loop keeps values in order of first occurrence. -/
theorem dedupAux_pairwise {α : Type} [DecidableEq α] (l : List α) :
    ∀ seen, (dedupAux seen l).Pairwise
      (fun a b => List.indexOf a l < List.indexOf b l) := by
  induction l with
  | nil =>
    intro seen
    simp [dedupAux]
  | cons c rest ih =>
    intro seen
    by_cases hc : c ∈ seen
    · simp only [dedupAux, if_pos hc]
      refine List.Pairwise.imp_of_mem ?_ (ih seen)
      intro a b ha hb hlt
      have ha' := (dedupAux_mem seen rest a).mp ha
      have hb' := (dedupAux_mem seen rest b).mp hb
      have hna : c ≠ a := fun h => ha'.2 (by rw [← h]; exact hc)
      have hnb : c ≠ b := fun h => hb'.2 (by rw [← h]; exact hc)
      rw [List.indexOf_cons_ne rest hna, List.indexOf_cons_ne rest hnb]
      exact Nat.succ_lt_succ hlt
    · simp only [dedupAux, if_neg hc]
      refine List.pairwise_cons.mpr ⟨?_, ?_⟩
      · intro b hb
        have hb' := (dedupAux_mem _ _ _).mp hb
        have hnb : c ≠ b := fun h => hb'.2 (by rw [← h]; exact List.mem_cons_self c seen)
        rw [List.indexOf_cons_self, List.indexOf_cons_ne rest hnb]
        exact Nat.succ_pos _
      · refine List.Pairwise.imp_of_mem ?_ (ih (c :: seen))
        intro a b ha hb hlt
        have ha' := (dedupAux_mem _ _ _).mp ha
        have hb' := (dedupAux_mem _ _ _).mp hb
        have hna : c ≠ a := fun h => ha'.2 (by rw [← h]; exact List.mem_cons_self c seen)
        have hnb : c ≠ b := fun h => hb'.2 (by rw [← h]; exact List.mem_cons_self c seen)
        rw [List.indexOf_cons_ne rest hna, List.indexOf_cons_ne rest hnb]
        exact Nat.succ_lt_succ hlt

/-- The full address always carries the fixed suffix. -/
theorem build_full_address_suffix (r : Rec) :
    ∃ s, ExportGeojson.build_full_address r = s ++ "Utrecht, Nederland" := by
  unfold ExportGeojson.build_full_address
  by_cases ha : pyStrip (r.get "Adres") = ""
  · by_cases hp : pyStrip (r.get "Postcode") = ""
    · refine ⟨"", ?_⟩
      simp [ha, hp, joinSep]
    · refine ⟨pyStrip (r.get "Postcode") ++ ", ", ?_⟩
      simp [ha, hp, joinSep]
  · by_cases hp : pyStrip (r.get "Postcode") = ""
    · refine ⟨pyStrip (r.get "Adres") ++ ", ", ?_⟩
      simp [ha, hp, joinSep]
    · refine ⟨pyStrip (r.get "Adres") ++ ", " ++ (pyStrip (r.get "Postcode") ++ ", "), ?_⟩
      simp [ha, hp, joinSep, String.append_assoc]

/-- The full address is never the empty string. -/
theorem build_full_address_ne (r : Rec) : ExportGeojson.build_full_address r ≠ "" := by
  obtain ⟨s, hs⟩ := build_full_address_suffix r
  intro h
  rw [hs] at h
  have hlen := congrArg String.length h
  rw [String.length_append] at hlen
  have h18 : ("Utrecht, Nederland" : String).length = 18 := rfl
  have h0 : ("" : String).length = 0 := rfl
  rw [h18, h0] at hlen
  omega

/-! Claim theorems. -/

/-- C4: the deduplication used on address strings and on coordinate pairs
keeps each distinct value exactly once, and the kept values are ordered by
the index of their first occurrence in the input. -/
theorem claim_C4 {α : Type} [DecidableEq α] (l : List α) :
    (dedup l).Nodup ∧ (∀ a, a ∈ dedup l ↔ a ∈ l) ∧
      (dedup l).Pairwise (fun a b => List.indexOf a l < List.indexOf b l) := by
  refine ⟨dedupAux_nodup [] l, fun a => ?_, dedupAux_pairwise l []⟩
  rw [dedup, dedupAux_mem]
  simp

/-- C10: the address built by the GeoJSON pipeline always ends with the
fixed suffix Utrecht, Nederland, hence is never empty, so the skip branch
for empty addresses in main is unreachable. -/
theorem claim_C10 (r : Rec) :
    (∃ s, ExportGeojson.build_full_address r = s ++ "Utrecht, Nederland") ∧
      ExportGeojson.build_full_address r ≠ "" :=
  ⟨build_full_address_suffix r, build_full_address_ne r⟩

/-- C6: in both scripts a record is excluded by the city filter exactly
when its stripped city field is non-empty and, lowered, differs from
utrecht; an empty city field never excludes; an excluded record is dropped
before address building, producing no feature, no diagnostic and no
geocoding call; and in read_addresses the same condition decides exclusion
once the street field is non-empty. -/
theorem claim_C6 (r : Rec) (resolve : String → GeoResponse) :
    (ExportGeojson.cityExcluded r = true ↔
      (pyStrip (r.get "Stad") ≠ "" ∧ strLower (pyStrip (r.get "Stad")) ≠ "utrecht")) ∧
    (pyStrip (r.get "Stad") = "" → ExportGeojson.cityExcluded r = false) ∧
    (ExportGeojson.cityExcluded r = true →
      ExportGeojson.processRow resolve r = ⟨none, [], []⟩) ∧
    (pyStrip (r.get "Adres") ≠ "" →
      (GenerateMap.rowAddress r = none ↔
        (pyStrip (r.get "Stad") ≠ "" ∧ strLower (pyStrip (r.get "Stad")) ≠ "utrecht"))) := by
  have h1 : ExportGeojson.cityExcluded r = true ↔
      (pyStrip (r.get "Stad") ≠ "" ∧ strLower (pyStrip (r.get "Stad")) ≠ "utrecht") := by
    simp only [ExportGeojson.cityExcluded, Bool.and_eq_true, decide_eq_true_eq]
    rw [ne_eq, strLower_eq_empty_iff]
  refine ⟨h1, ?_, ?_, ?_⟩
  · intro hp
    rw [Bool.eq_false_iff]
    intro hc
    exact (h1.mp hc).1 hp
  · intro hc
    unfold ExportGeojson.processRow
    rw [hc]
    simp
  · intro ha
    unfold GenerateMap.rowAddress
    rw [if_neg ha]
    by_cases hcond :
        pyStrip (r.get "Stad") ≠ "" ∧ strLower (pyStrip (r.get "Stad")) ≠ "utrecht"
    · rw [if_pos hcond]
      simp [hcond]
    · rw [if_neg hcond]
      simp [hcond]

/-- C9: sanitize_props depends only on the allow-listed columns and the
row index, and its keys are exactly the renamed allow-listed keys plus
row, so no value of any column outside the allow-list can reach the
output. -/
theorem claim_C9 (r₁ r₂ : Rec)
    (hrow : r₁.rowIdx = r₂.rowIdx)
    (hallow : ∀ k ∈ ExportGeojson.keep.map Prod.fst, r₁.get k = r₂.get k) :
    ExportGeojson.sanitize_props r₁ = ExportGeojson.sanitize_props r₂ ∧
      (ExportGeojson.sanitize_props r₁).map Prod.fst =
        ExportGeojson.keep.map Prod.snd ++ ["row"] := by
  constructor
  · unfold ExportGeojson.sanitize_props
    rw [hrow]
    congr 1
    apply List.map_congr_left
    intro p hp
    rw [hallow p.1 (List.mem_map_of_mem Prod.fst hp)]
  · unfold ExportGeojson.sanitize_props
    simp

/-- An excluded record produces nothing: no feature, no diagnostic, no
geocoding call. -/
theorem processRow_excluded (resolve : String → GeoResponse) (r : Rec)
    (hcity : ExportGeojson.cityExcluded r = true) :
    ExportGeojson.processRow resolve r = ⟨none, [], []⟩ := by
  unfold ExportGeojson.processRow
  rw [hcity]
  simp

/-- processRow on a non-excluded, successfully geocoded record. -/
theorem processRow_success (resolve : String → GeoResponse) (r : Rec) (lon lat : Int)
    (hcity : ExportGeojson.cityExcluded r = false)
    (hok : ExportGeojson.geocode (resolve (ExportGeojson.build_full_address r)) =
      Except.ok (some (lon, lat))) :
    ExportGeojson.processRow resolve r =
      ⟨some (Json.obj [("type", Json.str "Feature"),
          ("geometry", Json.obj [("type", Json.str "Point"),
            ("coordinates", Json.arr [Json.num lon, Json.num lat])]),
          ("properties", Json.obj (ExportGeojson.sanitize_props r))]),
       [], [Event.call (ExportGeojson.build_full_address r), Event.sleep]⟩ := by
  unfold ExportGeojson.processRow
  rw [hcity]
  simp only [Bool.false_eq_true, if_false]
  rw [if_neg (build_full_address_ne r), hok]

/-- processRow on a non-excluded record whose geocoding returns no
candidate or raises: the feature is absent and a diagnostic is emitted. -/
theorem processRow_fail (resolve : String → GeoResponse) (r : Rec)
    (hcity : ExportGeojson.cityExcluded r = false)
    (hfail : ExportGeojson.geocode (resolve (ExportGeojson.build_full_address r)) =
        Except.ok none ∨
      ∃ e, ExportGeojson.geocode (resolve (ExportGeojson.build_full_address r)) =
        Except.error e) :
    (ExportGeojson.processRow resolve r).feature = none ∧
      (ExportGeojson.processRow resolve r).errs ≠ [] := by
  unfold ExportGeojson.processRow
  rw [hcity]
  simp only [Bool.false_eq_true, if_false]
  rw [if_neg (build_full_address_ne r)]
  rcases hfail with h | ⟨e, h⟩ <;> rw [h] <;> simp

/-- A non-excluded record always triggers exactly one geocoding call, for
its full address. -/
theorem processRow_call (resolve : String → GeoResponse) (r : Rec)
    (hcity : ExportGeojson.cityExcluded r = false) :
    callsOf (ExportGeojson.processRow resolve r).events =
      [ExportGeojson.build_full_address r] := by
  unfold ExportGeojson.processRow
  rw [hcity]
  simp only [Bool.false_eq_true, if_false]
  rw [if_neg (build_full_address_ne r)]
  cases hg : ExportGeojson.geocode (resolve (ExportGeojson.build_full_address r)) with
  | error e => simp [callsOf]
  | ok c =>
    cases c with
    | none => simp [callsOf]
    | some p =>
      obtain ⟨lon, lat⟩ := p
      simp [callsOf]

/-- The feature list of the main loop is the in-order filterMap of the
per-row features. -/
theorem exportRun_features (resolve : String → GeoResponse) (rows : List Rec) :
    (ExportGeojson.exportRun resolve rows).features =
      rows.filterMap (fun r => (ExportGeojson.processRow resolve r).feature) := by
  induction rows with
  | nil => rfl
  | cons r rest ih =>
    simp only [ExportGeojson.exportRun, List.filterMap_cons]
    cases hf : (ExportGeojson.processRow resolve r).feature with
    | none => simp [hf, ih]
    | some f => simp [hf, ih]

/-- The main loop is compositional: a prefix of rows never prevents the
rest from being processed. -/
theorem exportRun_append (resolve : String → GeoResponse) (l₁ l₂ : List Rec) :
    (ExportGeojson.exportRun resolve (l₁ ++ l₂)).features =
        (ExportGeojson.exportRun resolve l₁).features ++
          (ExportGeojson.exportRun resolve l₂).features ∧
      (ExportGeojson.exportRun resolve (l₁ ++ l₂)).errs =
        (ExportGeojson.exportRun resolve l₁).errs ++
          (ExportGeojson.exportRun resolve l₂).errs ∧
      (ExportGeojson.exportRun resolve (l₁ ++ l₂)).events =
        (ExportGeojson.exportRun resolve l₁).events ++
          (ExportGeojson.exportRun resolve l₂).events := by
  induction l₁ with
  | nil => simp [ExportGeojson.exportRun]
  | cons r rest ih =>
    simp only [List.cons_append, ExportGeojson.exportRun, List.append_eq]
    exact ⟨by rw [ih.1, List.append_assoc],
           by rw [ih.2.1, List.append_assoc],
           by rw [ih.2.2, List.append_assoc]⟩

/-- The geocoding calls of the main loop, in order: one per non-excluded
row, for its full address. -/
theorem exportRun_calls (resolve : String → GeoResponse) (rows : List Rec) :
    callsOf (ExportGeojson.exportRun resolve rows).events =
      (rows.filter (fun r => !ExportGeojson.cityExcluded r)).map
        ExportGeojson.build_full_address := by
  induction rows with
  | nil => rfl
  | cons r rest ih =>
    simp only [ExportGeojson.exportRun, callsOf, List.filterMap_append, List.filter_cons]
    cases hcity : ExportGeojson.cityExcluded r with
    | true =>
      rw [processRow_excluded resolve r hcity]
      simpa [callsOf] using ih
    | false =>
      have hc := processRow_call resolve r hcity
      simp only [callsOf] at hc ih
      simp [hc, ih]

/-- C7: the emitted object is a FeatureCollection whose features appear in
row-processing order; every successfully geocoded, non-excluded record
yields a Feature with Point geometry whose coordinates are the two-element
[lon, lat] array equal to the geocoding result, with the sanitized
properties; the properties carry the zero-based row index under the fixed
key row; and read_rows assigns the indices 0, 1, 2, ... in order. -/
theorem claim_C7 (resolve : String → GeoResponse) (rows : List Rec) :
    ExportGeojson.exportFC resolve rows =
      Json.obj [("type", Json.str "FeatureCollection"),
        ("features", Json.arr
          (rows.filterMap (fun r => (ExportGeojson.processRow resolve r).feature)))] ∧
    (∀ (r : Rec) (lon lat : Int),
      ExportGeojson.cityExcluded r = false →
      ExportGeojson.geocode (resolve (ExportGeojson.build_full_address r)) =
        Except.ok (some (lon, lat)) →
      (ExportGeojson.processRow resolve r).feature =
        some (Json.obj [("type", Json.str "Feature"),
          ("geometry", Json.obj [("type", Json.str "Point"),
            ("coordinates", Json.arr [Json.num lon, Json.num lat])]),
          ("properties", Json.obj (ExportGeojson.sanitize_props r))])) ∧
    (∀ r : Rec, (ExportGeojson.sanitize_props r).lookup "row" =
      some (Json.num r.rowIdx)) ∧
    (∀ raws : List (List (String × String)),
      (ExportGeojson.read_rows raws).map Rec.rowIdx = List.range raws.length) := by
  refine ⟨?_, ?_, ?_, ?_⟩
  · unfold ExportGeojson.exportFC
    rw [exportRun_features]
  · intro r lon lat hcity hok
    rw [processRow_success resolve r lon lat hcity hok]
  · intro r
    rfl
  · intro raws
    have hcomp : (Rec.rowIdx ∘ fun p : Nat × List (String × String) =>
        (⟨p.2, p.1⟩ : Rec)) = Prod.fst := rfl
    simp only [ExportGeojson.read_rows, List.map_map]
    rw [hcomp]
    simp

/-- Witness for C7 at a concrete record and geocoding service. -/
theorem claim_C7_witness :
    (ExportGeojson.processRow okResolve rowA).feature =
      some (Json.obj [("type", Json.str "Feature"),
        ("geometry", Json.obj [("type", Json.str "Point"),
          ("coordinates", Json.arr [Json.num 5121420, Json.num 52090737])]),
        ("properties", Json.obj (ExportGeojson.sanitize_props rowA))]) :=
  (claim_C7 okResolve [rowA]).2.1 rowA 5121420 52090737 rfl rfl

/-- A center-safe response cannot abort the geocode_all loop iteration. -/
theorem geocodeStep_ok_of_safe (resolve : String → GeoResponse) (a : String)
    (hsafe : GenerateMap.centerSafe (resolve a) = true) :
    ∃ v, GenerateMap.geocodeStep resolve a = Except.ok v := by
  unfold GenerateMap.geocodeStep
  cases hresp : resolve a with
  | transportErr e =>
    exact ⟨_, rfl⟩
  | jsonOk feats =>
    rw [hresp] at hsafe
    cases feats with
    | nil => exact ⟨_, rfl⟩
    | cons f fs =>
      cases f with
      | none => exact ⟨_, rfl⟩
      | some center =>
        cases center with
        | nil => exact ⟨_, rfl⟩
        | cons x t =>
          cases t with
          | nil => simp [GenerateMap.centerSafe] at hsafe
          | cons y t2 =>
            simp only [GenerateMap.centerSafe, Bool.and_eq_true] at hsafe
            obtain ⟨lon, hx⟩ := Option.isSome_iff_exists.mp hsafe.1
            obtain ⟨lat, hy⟩ := Option.isSome_iff_exists.mp hsafe.2
            simp only [GenerateMap.geocode_address, hx, hy]
            exact ⟨_, rfl⟩

/-- When the geocoding yields no usable candidate, the step reports the
warning and continues with an absent coordinate. -/
theorem geocodeStep_fail (resolve : String → GeoResponse) (a : String)
    (hfail : GenerateMap.geocode_address (resolve a) = Except.ok none ∨
      GenerateMap.geocode_address (resolve a) = Except.ok (some []) ∨
      ∃ e, GenerateMap.geocode_address (resolve a) = Except.error e) :
    ∃ errs, GenerateMap.geocodeStep resolve a = Except.ok (none, errs) ∧
      ("Warning: no result for " ++ a) ∈ errs := by
  unfold GenerateMap.geocodeStep
  rcases hfail with h | h | ⟨e, h⟩ <;> rw [h]
  · exact ⟨_, rfl, by simp⟩
  · exact ⟨_, rfl, by simp⟩
  · exact ⟨_, rfl, by simp⟩

/-- With center-safe responses the whole geocode_all loop completes, and a
warning is emitted for every address whose lookup failed. -/
theorem geocodeRaw_safe (resolve : String → GeoResponse) (addrs : List String)
    (hsafe : ∀ a ∈ addrs, GenerateMap.centerSafe (resolve a) = true) :
    ∃ run, GenerateMap.geocodeRaw resolve addrs = Except.ok run ∧
      ∀ a ∈ addrs,
        (GenerateMap.geocode_address (resolve a) = Except.ok none ∨
         GenerateMap.geocode_address (resolve a) = Except.ok (some []) ∨
         ∃ e, GenerateMap.geocode_address (resolve a) = Except.error e) →
        ("Warning: no result for " ++ a) ∈ run.errs := by
  induction addrs with
  | nil => exact ⟨⟨[], [], []⟩, rfl, by simp⟩
  | cons a rest ih =>
    obtain ⟨run, hrun, hwarn⟩ := ih (fun b hb => hsafe b (List.mem_cons_of_mem _ hb))
    obtain ⟨v, hv⟩ := geocodeStep_ok_of_safe resolve a (hsafe a (List.mem_cons_self _ _))
    obtain ⟨c, errs⟩ := v
    refine ⟨⟨c.toList ++ run.coords, errs ++ run.errs,
      [Event.call a, Event.sleep] ++ run.events⟩, ?_, ?_⟩
    · unfold GenerateMap.geocodeRaw
      rw [hv, hrun]
    · intro b hb hfail
      rcases List.mem_cons.mp hb with hba | hbrest
      · subst hba
        obtain ⟨errs2, hstep2, hmem⟩ := geocodeStep_fail resolve b hfail
        rw [hv] at hstep2
        simp only [Except.ok.injEq, Prod.mk.injEq] at hstep2
        exact List.mem_append_left _ (hstep2.2 ▸ hmem)
      · exact List.mem_append_right _ (hwarn b hbrest hfail)

/-- A completed geocode_all loop issues exactly one call per input
address, in input order. -/
theorem geocodeRaw_calls (resolve : String → GeoResponse) :
    ∀ (addrs : List String) (run : GenerateMap.ImgRun),
      GenerateMap.geocodeRaw resolve addrs = Except.ok run →
      callsOf run.events = addrs := by
  intro addrs
  induction addrs with
  | nil =>
    intro run h
    unfold GenerateMap.geocodeRaw at h
    injection h with h2
    rw [← h2]
    rfl
  | cons a rest ih =>
    intro run h
    unfold GenerateMap.geocodeRaw at h
    cases hstep : GenerateMap.geocodeStep resolve a with
    | error e =>
      rw [hstep] at h
      exact absurd h (by simp)
    | ok v =>
      obtain ⟨c, errs⟩ := v
      rw [hstep] at h
      cases hrec : GenerateMap.geocodeRaw resolve rest with
      | error e =>
        rw [hrec] at h
        exact absurd h (by simp)
      | ok r =>
        rw [hrec] at h
        injection h with h2
        rw [← h2]
        have htail := ih r hrec
        simp only [callsOf, List.cons_append, List.nil_append,
          List.filterMap_cons] at htail ⊢
        rw [htail]

/-- Unfolding geocode_all into the loop result and the final coordinate
deduplication. -/
theorem geocode_all_ok (resolve : String → GeoResponse) (addrs : List String)
    (run : GenerateMap.ImgRun)
    (h : GenerateMap.geocode_all resolve addrs = Except.ok run) :
    ∃ raw, GenerateMap.geocodeRaw resolve addrs = Except.ok raw ∧
      run = ⟨dedup raw.coords, raw.errs, raw.events⟩ := by
  unfold GenerateMap.geocode_all at h
  cases hraw : GenerateMap.geocodeRaw resolve addrs with
  | error e =>
    rw [hraw] at h
    exact absurd h (by simp)
  | ok r =>
    rw [hraw] at h
    injection h with h2
    exact ⟨r, rfl, h2.symm⟩

/-- C1 (amended): in the GeoJSON pipeline every per-item geocoding failure
(no candidate, transport or parse error) yields an absent feature plus a
diagnostic while the remaining rows are still processed; in the image
pipeline the same holds whenever no response carries a non-empty malformed
center array.  (The original claim fails for such centers in the image
pipeline: see the counterexample.) -/
theorem claim_C1_amended (resolve : String → GeoResponse) :
    (∀ l₁ l₂ : List Rec,
      (ExportGeojson.exportRun resolve (l₁ ++ l₂)).features =
        (ExportGeojson.exportRun resolve l₁).features ++
          (ExportGeojson.exportRun resolve l₂).features) ∧
    (∀ r : Rec,
      ExportGeojson.cityExcluded r = false →
      (ExportGeojson.geocode (resolve (ExportGeojson.build_full_address r)) =
          Except.ok none ∨
        ∃ e, ExportGeojson.geocode (resolve (ExportGeojson.build_full_address r)) =
          Except.error e) →
      (ExportGeojson.processRow resolve r).feature = none ∧
        (ExportGeojson.processRow resolve r).errs ≠ []) ∧
    (∀ addrs : List String,
      (∀ a ∈ addrs, GenerateMap.centerSafe (resolve a) = true) →
      ∃ run, GenerateMap.geocode_all resolve addrs = Except.ok run ∧
        ∀ a ∈ addrs,
          (GenerateMap.geocode_address (resolve a) = Except.ok none ∨
           GenerateMap.geocode_address (resolve a) = Except.ok (some []) ∨
           ∃ e, GenerateMap.geocode_address (resolve a) = Except.error e) →
          ("Warning: no result for " ++ a) ∈ run.errs) := by
  refine ⟨fun l₁ l₂ => (exportRun_append resolve l₁ l₂).1,
    processRow_fail resolve, ?_⟩
  intro addrs hsafe
  obtain ⟨raw, hraw, hwarn⟩ := geocodeRaw_safe resolve addrs hsafe
  refine ⟨⟨dedup raw.coords, raw.errs, raw.events⟩, ?_, hwarn⟩
  unfold GenerateMap.geocode_all
  rw [hraw]

/-- Witness for C1 at a concrete failing record and address. -/
theorem claim_C1_witness :
    ((ExportGeojson.processRow noResultResolve rowA).feature = none ∧
      (ExportGeojson.processRow noResultResolve rowA).errs ≠ []) ∧
    ∃ run, GenerateMap.geocode_all noResultResolve ["x"] = Except.ok run ∧
      ("Warning: no result for " ++ "x") ∈ run.errs := by
  have h := claim_C1_amended noResultResolve
  refine ⟨h.2.1 rowA rfl (Or.inl rfl), ?_⟩
  obtain ⟨run, hrun, hwarn⟩ := h.2.2 ["x"] (fun a _ => rfl)
  exact ⟨run, hrun, hwarn "x" (by simp) (Or.inl rfl)⟩

/-- Counterexample for C1 as stated: a syntactically valid response whose
top candidate carries a non-numeric center makes the float conversion of
generate_map.py line 72 raise outside the try block, aborting the whole
batch although the very next address would geocode fine. -/
theorem claim_C1_counterexample :
    GenerateMap.geocode_all mixedResolve ["a", "b"] =
      Except.error "could not convert center entries for a" ∧
    GenerateMap.geocode_all mixedResolve ["b"] =
      Except.ok ⟨[(5121420, 52090737)], [], [Event.call "b", Event.sleep]⟩ :=
  ⟨rfl, rfl⟩

/-- C8 (amended): the image pipeline deduplicates addresses before
geocoding (the unique list has no repeats and the loop issues exactly one
call per entry); the GeoJSON pipeline performs no deduplication and issues
one call per non-excluded record, so records sharing an address trigger
repeated calls (see the counterexample). -/
theorem claim_C8_amended (resolve : String → GeoResponse) (rows : List Rec) :
    (GenerateMap.read_addresses rows).Nodup ∧
    (∀ (addrs : List String) (run : GenerateMap.ImgRun),
      GenerateMap.geocode_all resolve addrs = Except.ok run →
      callsOf run.events = addrs) ∧
    callsOf (ExportGeojson.exportRun resolve rows).events =
      (rows.filter (fun r => !ExportGeojson.cityExcluded r)).map
        ExportGeojson.build_full_address := by
  refine ⟨dedupAux_nodup [] _, ?_, exportRun_calls resolve rows⟩
  intro addrs run h
  obtain ⟨raw, hraw, hrun⟩ := geocode_all_ok resolve addrs run h
  rw [hrun]
  exact geocodeRaw_calls resolve addrs raw hraw

/-- Witness for C8 at concrete inputs. -/
theorem claim_C8_witness :
    (GenerateMap.read_addresses [rowA, rowA2]).Nodup ∧
    callsOf xyRun.events = ["x", "y"] ∧
    callsOf (ExportGeojson.exportRun noResultResolve [rowA]).events =
      [ExportGeojson.build_full_address rowA] := by
  have h := claim_C8_amended noResultResolve [rowA, rowA2]
  refine ⟨h.1, h.2.1 ["x", "y"] xyRun rfl, ?_⟩
  exact (claim_C8_amended noResultResolve [rowA]).2.2

/-- Counterexample for C8 as stated: two distinct records with the same
address make the GeoJSON pipeline geocode the same string twice. -/
theorem claim_C8_counterexample :
    callsOf (ExportGeojson.exportRun noResultResolve [rowA, rowA2]).events =
      ["Domplein 1, Utrecht, Nederland", "Domplein 1, Utrecht, Nederland"] ∧
    ¬ (callsOf (ExportGeojson.exportRun noResultResolve [rowA, rowA2]).events).Nodup :=
  ⟨rfl, by decide⟩

/-- C3 (code bug): in export_geojson.py a record with an empty street
field is still geocoded (for the bare suffix Utrecht, Nederland) and can
produce a feature, although the guard at line 88 shows the intent to skip
it and generate_map.py line 26 does skip it. -/
theorem claim_C3_code_bug :
    callsOf (ExportGeojson.processRow okResolve emptyStreetRec).events =
      ["Utrecht, Nederland"] ∧
    (ExportGeojson.processRow okResolve emptyStreetRec).feature.isSome = true ∧
    GenerateMap.rowAddress emptyStreetRec = none :=
  ⟨rfl, rfl, rfl⟩

/-- C5 (code bug): in export_geojson.py the continue statements at lines
89 and 97 jump past the time.sleep at line 107, so two failing geocoding
calls run back to back with no rate-limit pause, while generate_map.py
sleeps after every call. -/
theorem claim_C5_code_bug :
    (ExportGeojson.exportRun noResultResolve [rowA, rowB]).events =
      [Event.call "Domplein 1, Utrecht, Nederland",
       Event.call "Neude 2, Utrecht, Nederland"] ∧
    GenerateMap.geocode_all noResultResolve ["x", "y"] = Except.ok xyRun :=
  ⟨rfl, rfl⟩

/-- Witness for C6 at a Rotterdam record. -/
theorem claim_C6_witness :
    ExportGeojson.processRow noResultResolve rotterdamRec = ⟨none, [], []⟩ ∧
    GenerateMap.rowAddress rotterdamRec = none := by
  have h := claim_C6 rotterdamRec noResultResolve
  exact ⟨h.2.2.1 rfl, (h.2.2.2 (by decide)).mpr (by decide)⟩

/-- Witness for C9: adding an unlisted column with a secret value leaves
the sanitized properties unchanged. -/
theorem claim_C9_witness :
    ExportGeojson.sanitize_props recWithSecret =
      ExportGeojson.sanitize_props recWithoutSecret :=
  (claim_C9 recWithSecret recWithoutSecret rfl (by decide)).1

/-- chunk on the empty list. -/
theorem chunk_nil {α : Type} : GenerateMap.chunk 100 ([] : List α) = [] := by
  rw [GenerateMap.chunk]

/-- Unfolding chunk on a non-empty list. -/
theorem chunk_cons {α : Type} (a : α) (rest : List α) :
    GenerateMap.chunk 100 (a :: rest) =
      (a :: rest).take 100 :: GenerateMap.chunk 100 ((a :: rest).drop 100) := by
  rw [GenerateMap.chunk]
  rw [dif_neg (by decide)]

/-- chunk never produces an empty job list from a non-empty input. -/
theorem chunk100_ne_nil {α : Type} (a : α) (rest : List α) :
    GenerateMap.chunk 100 (a :: rest) ≠ [] := by
  rw [chunk_cons]
  simp

/-- Concatenating the chunks gives back the input, in order. -/
theorem chunk100_flatten {α : Type} (l0 : List α) :
    (GenerateMap.chunk 100 l0).flatten = l0 := by
  suffices h : ∀ (k : Nat) (l : List α), l.length = k →
      (GenerateMap.chunk 100 l).flatten = l from h l0.length l0 rfl
  intro k
  induction k using Nat.strong_induction_on with
  | _ k ih =>
    intro l hk
    cases l with
    | nil => rw [chunk_nil]; rfl
    | cons a rest =>
      rw [chunk_cons, List.flatten_cons]
      rw [ih ((a :: rest).drop 100).length (by simp [← hk, List.length_drop]; omega)
        ((a :: rest).drop 100) rfl]
      exact List.take_append_drop 100 (a :: rest)

/-- The number of chunks is the length divided by 100, rounded up. -/
theorem chunk100_length {α : Type} (l0 : List α) :
    (GenerateMap.chunk 100 l0).length = (l0.length + 99) / 100 := by
  suffices h : ∀ (k : Nat) (l : List α), l.length = k →
      (GenerateMap.chunk 100 l).length = (l.length + 99) / 100 from h l0.length l0 rfl
  intro k
  induction k using Nat.strong_induction_on with
  | _ k ih =>
    intro l hk
    cases l with
    | nil => rw [chunk_nil]; simp
    | cons a rest =>
      rw [chunk_cons, List.length_cons]
      rw [ih ((a :: rest).drop 100).length (by simp [← hk, List.length_drop]; omega)
        ((a :: rest).drop 100) rfl]
      simp only [List.length_drop, List.length_cons]
      omega

/-- Every chunk except the last holds exactly 100 coordinates. -/
theorem chunk100_dropLast {α : Type} (l0 : List α) :
    ∀ c ∈ (GenerateMap.chunk 100 l0).dropLast, c.length = 100 := by
  suffices h : ∀ (k : Nat) (l : List α), l.length = k →
      ∀ c ∈ (GenerateMap.chunk 100 l).dropLast, c.length = 100 from h l0.length l0 rfl
  intro k
  induction k using Nat.strong_induction_on with
  | _ k ih =>
    intro l hk
    cases l with
    | nil =>
      rw [chunk_nil]
      simp
    | cons a rest =>
      rw [chunk_cons]
      cases hdrop : (a :: rest).drop 100 with
      | nil =>
        rw [chunk_nil]
        simp
      | cons b brest =>
        intro c hc
        cases hL : GenerateMap.chunk 100 (b :: brest) with
        | nil => exact absurd hL (chunk100_ne_nil b brest)
        | cons C Cs =>
          rw [hL, List.dropLast_cons₂] at hc
          have hlen : 100 ≤ rest.length := by
            have hdl := congrArg List.length hdrop
            simp only [List.length_drop, List.length_cons] at hdl
            omega
          rcases List.mem_cons.mp hc with hcT | hcTail
          · subst hcT
            simp only [List.length_take, List.length_cons]
            omega
          · rw [← hL] at hcTail
            exact ih (b :: brest).length
              (by
                have hdl := congrArg List.length hdrop
                simp only [List.length_drop, List.length_cons] at hdl hk ⊢
                omega)
              (b :: brest) rfl c hcTail

/-- The last chunk holds the remainder: N mod 100 coordinates, or 100 when
N is a multiple of 100. -/
theorem chunk100_getLast_size {α : Type} (l0 : List α) (hl0 : l0 ≠ []) :
    ∃ c, (GenerateMap.chunk 100 l0).getLast? = some c ∧
      c.length = if l0.length % 100 = 0 then 100 else l0.length % 100 := by
  suffices h : ∀ (k : Nat) (l : List α), l.length = k → l ≠ [] →
      ∃ c, (GenerateMap.chunk 100 l).getLast? = some c ∧
        c.length = if l.length % 100 = 0 then 100 else l.length % 100 from
    h l0.length l0 rfl hl0
  intro k
  induction k using Nat.strong_induction_on with
  | _ k ih =>
    intro l hk hl
    cases l with
    | nil => exact absurd rfl hl
    | cons a rest =>
      cases hdrop : (a :: rest).drop 100 with
      | nil =>
        have hch : GenerateMap.chunk 100 (a :: rest) = [(a :: rest).take 100] := by
          rw [chunk_cons, hdrop, chunk_nil]
        have hlen : rest.length + 1 ≤ 100 := by
          have hdl := congrArg List.length hdrop
          simp only [List.length_drop, List.length_cons, List.length_nil] at hdl
          omega
        rw [hch]
        refine ⟨(a :: rest).take 100, rfl, ?_⟩
        simp only [List.length_take, List.length_cons]
        by_cases hm : (rest.length + 1) % 100 = 0
        · rw [if_pos hm]
          omega
        · rw [if_neg hm]
          omega
      | cons b brest =>
        have hch : GenerateMap.chunk 100 (a :: rest) =
            (a :: rest).take 100 :: GenerateMap.chunk 100 (b :: brest) := by
          rw [chunk_cons, hdrop]
        have hdl := congrArg List.length hdrop
        simp only [List.length_drop, List.length_cons] at hdl
        obtain ⟨c, hc, hclen⟩ := ih (b :: brest).length
          (by simp only [List.length_cons] at hk ⊢; omega)
          (b :: brest) rfl (by simp)
        cases hL : GenerateMap.chunk 100 (b :: brest) with
        | nil => exact absurd hL (chunk100_ne_nil b brest)
        | cons C Cs =>
          rw [hL] at hc
          rw [hch, hL]
          refine ⟨c, ?_, ?_⟩
          · rw [List.getLast?_cons_cons]
            exact hc
          · have hmodeq : (a :: rest).length % 100 = (b :: brest).length % 100 := by
              simp only [List.length_cons]
              omega
            rw [List.length_cons] at hmodeq ⊢
            rw [hmodeq]
            simpa using hclen

/-- C2: zero coordinates produce zero jobs (main exits before planning);
when the full composed URL stays under 7800 characters exactly one job
holds all coordinates; otherwise the jobs are the in-order chunks of 100:
ceil(N/100) of them, concatenating back to the input, each of exactly 100
coordinates except a final chunk of N mod 100 (or 100 when N is divisible
by 100). -/
theorem claim_C2 (token : String) (coords : List Coord) :
    (coords = [] → GenerateMap.planJobs token coords = []) ∧
    (coords ≠ [] →
      (GenerateMap.build_static_url
          (GenerateMap.build_marker_overlays coords) token).length < 7800 →
      GenerateMap.planJobs token coords = [coords]) ∧
    (coords ≠ [] →
      7800 ≤ (GenerateMap.build_static_url
          (GenerateMap.build_marker_overlays coords) token).length →
      GenerateMap.planJobs token coords = GenerateMap.chunk 100 coords ∧
      (GenerateMap.chunk 100 coords).length = (coords.length + 99) / 100 ∧
      (GenerateMap.chunk 100 coords).flatten = coords ∧
      (∀ c ∈ (GenerateMap.chunk 100 coords).dropLast, c.length = 100) ∧
      ∃ c, (GenerateMap.chunk 100 coords).getLast? = some c ∧
        c.length = if coords.length % 100 = 0 then 100
          else coords.length % 100) := by
  refine ⟨fun h => by simp [GenerateMap.planJobs, h], ?_, ?_⟩
  · intro hne hlt
    simp [GenerateMap.planJobs, hne, hlt]
  · intro hne hge
    have hnotlt : ¬ (GenerateMap.build_static_url
        (GenerateMap.build_marker_overlays coords) token).length < 7800 := by omega
    exact ⟨by simp [GenerateMap.planJobs, hne, hnotlt], chunk100_length coords,
      chunk100_flatten coords, chunk100_dropLast coords,
      chunk100_getLast_size coords hne⟩

/-- joinSep on a list of at least two elements. -/
theorem joinSep_cons_cons (sep x y : String) (xs : List String) :
    joinSep sep (x :: y :: xs) = x ++ sep ++ joinSep sep (y :: xs) := rfl

/-- Length of joinSep over n+1 copies of the same string. -/
theorem joinSep_replicate_length (sep s : String) (n : Nat) :
    (joinSep sep (List.replicate (n + 1) s)).length =
      (n + 1) * s.length + n * sep.length := by
  induction n with
  | zero => simp [joinSep]
  | succ m ih =>
    rw [List.replicate_succ, List.replicate_succ, joinSep_cons_cons,
      ← List.replicate_succ]
    simp only [String.length_append, ih]
    ring

/-- The overlay string of the 250 equal markers. -/
theorem w250_overlay_length :
    (GenerateMap.build_marker_overlays w250).length = 7999 := by
  have hM : "pin-s+" ++ GenerateMap.MARKER_COLOR ++ "(" ++
      GenerateMap.fmt6 ((0 : Int), (0 : Int)).1 ++ "," ++
      GenerateMap.fmt6 ((0 : Int), (0 : Int)).2 ++ ")" =
      "pin-s+ff2d20(0.000000,0.000000)" := by decide
  have hov : GenerateMap.build_marker_overlays w250 =
      joinSep "," (List.replicate 250 "pin-s+ff2d20(0.000000,0.000000)") := by
    unfold GenerateMap.build_marker_overlays w250
    rw [List.map_replicate, hM]
  rw [hov]
  have hj := joinSep_replicate_length "," "pin-s+ff2d20(0.000000,0.000000)" 249
  rw [show (249 : Nat) + 1 = 250 from rfl] at hj
  rw [hj]
  decide

/-- The full URL for the 250 markers exceeds the 7800 threshold. -/
theorem w250_url_long :
    7800 ≤ (GenerateMap.build_static_url
      (GenerateMap.build_marker_overlays w250) "t").length := by
  simp only [GenerateMap.build_static_url, String.length_append,
    w250_overlay_length]
  decide

set_option maxRecDepth 10000 in
/-- Witness for C2: a single coordinate stays under the threshold and
yields one job; 250 coordinates exceed it and yield 3 chunks. -/
theorem claim_C2_witness :
    GenerateMap.planJobs "t" [((5121420 : Int), (52090737 : Int))] =
      [[((5121420 : Int), (52090737 : Int))]] ∧
    GenerateMap.planJobs "t" w250 = GenerateMap.chunk 100 w250 ∧
    (GenerateMap.chunk 100 w250).length = 3 := by
  have h1 := (claim_C2 "t" [((5121420 : Int), (52090737 : Int))]).2.1
    (by simp) (by decide)
  have h2 := (claim_C2 "t" w250).2.2
    (by apply List.ne_nil_of_length_pos; simp [w250]) w250_url_long
  refine ⟨h1, h2.1, ?_⟩
  rw [h2.2.1]
  simp [w250]
